import Mathlib

/-!
Shallow embedding of the lookup service in `src/app.py`: phone
normalization, CSV load with index building, and the HTTP handler
functions, together with theorems checking the specification's claims.

Python strings are modelled as Lean strings; where the source performs
character-level work (strip, single-character replace) we work on the
underlying character list, which is what those Python operations do.
-/

namespace TestApi

/-! ## Rows: a pandas row (`df.loc[i]`) is a string-keyed record.
We model it as an association list from column name to cell value. -/

abbrev Row := List (String × String)

/-- `rec[c]` or `rec.get(c)`: first binding of column `c`, if any. -/
def rowFind (rec : Row) (c : String) : Option String :=
  (rec.find? (fun p => p.1 == c)).map Prod.snd

/-- `c in rec`: does the record have column `c`? -/
def rowHas (rec : Row) (c : String) : Bool :=
  rec.any (fun p => p.1 == c)

/-- `rec.get(c, d)` for string defaults. -/
def rowGetD (rec : Row) (c : String) (d : String) : String :=
  (rowFind rec c).getD d

/-! ## Phone normalization (`normalize_phone`, app.py lines 26-44). -/

/-- A character allowed by `PHONE_REGEX = ^[\d\+]+$`. -/
def isPhoneChar (c : Char) : Bool :=
  c.isDigit || c == '+'

/-- Python `str.strip()`: drop leading and trailing whitespace. -/
def stripL (l : List Char) : List Char :=
  ((l.dropWhile Char.isWhitespace).reverse.dropWhile Char.isWhitespace).reverse

/-- `phone.strip().replace(" ", "").replace("-", "")`. -/
def cleanL (l : List Char) : List Char :=
  (stripL l).filter (fun c => !(c == ' ' || c == '-'))

/-- `PHONE_REGEX.match`: nonempty and all characters digits or plus. -/
def phonePattern (l : List Char) : Bool :=
  !l.isEmpty && l.all isPhoneChar

/-- `l.startswith(pat)` on character lists. -/
def startsWithL : List Char → List Char → Bool
  | _, [] => true
  | [], _ :: _ => false
  | c :: cs, p :: ps => c == p && startsWithL cs ps

/-- Core of `normalize_phone` on character lists: clean, test the
pattern, then apply the first matching prefix rule in source order
(`00` becomes `+`, a leading `+` is kept, otherwise `+` is prepended,
the `39` case being spelled out in the source). -/
def normalize_phoneL (l : List Char) : List Char :=
  let p := cleanL l
  if !phonePattern p then p
  else if startsWithL p ['0', '0'] then '+' :: p.drop 2
  else if startsWithL p ['+'] then p
  else if startsWithL p ['3', '9'] then '+' :: p
  else '+' :: p

/-- `normalize_phone(phone)` from app.py. -/
def normalize_phone (phone : String) : String :=
  ⟨normalize_phoneL phone.data⟩

/-- The cleaned string (`strip` then remove spaces and hyphens), as a
string-level observable for stating the claims. -/
def cleanPhone (phone : String) : String :=
  ⟨cleanL phone.data⟩

/-! ## Python `int(str)` (used by the numeric single-field accessors).
`int("")` and `int("abc")` raise `ValueError`; we return `none` there.
CPython also accepts single underscores between digits, modelled below;
unicode digits beyond ASCII are not modelled. -/

/-- Digit run continuation: digits, with single underscores that must be
followed by another digit. -/
def pyDigitsRest : List Char → Bool
  | [] => true
  | '_' :: c :: rest => c.isDigit && pyDigitsRest rest
  | '_' :: [] => false
  | c :: rest => c.isDigit && pyDigitsRest rest

/-- A valid unsigned digit body for Python `int`: nonempty, not starting
with an underscore. -/
def pyDigits (l : List Char) : Bool :=
  match l with
  | [] => false
  | '_' :: _ => false
  | _ => pyDigitsRest l

/-- Numeric value of a digit/underscore run. -/
def digitsVal (l : List Char) : Nat :=
  l.foldl (fun a c => if c == '_' then a else a * 10 + (c.toNat - '0'.toNat)) 0

/-- `int(s)` on a string: strip whitespace, optional sign, digit body;
`none` models the `ValueError` path. -/
def pyIntParse (s : String) : Option Int :=
  match stripL s.data with
  | '+' :: rest => if pyDigits rest then some (Int.ofNat (digitsVal rest)) else none
  | '-' :: rest => if pyDigits rest then some (-(Int.ofNat (digitsVal rest))) else none
  | t => if pyDigits t then some (Int.ofNat (digitsVal t)) else none

/-! ## Python dict as used for the lookup indices.
`{val: idx for idx, val in enumerate(col)}` inserts pairs in order,
later duplicates overwriting earlier ones in place. We model the dict
as an association list with in-place overwriting insertion; lookup
takes the first (unique) binding. -/

abbrev Idx := List (String × Nat)

/-- `d[k] = v` on a Python dict: overwrite in place, or append. -/
def insertIdx : Idx → String → Nat → Idx
  | [], k, v => [(k, v)]
  | (k2, v2) :: rest, k, v =>
    if k2 == k then (k, v) :: rest else (k2, v2) :: insertIdx rest k v

/-- The dict comprehension, iterating values with positions from `i`. -/
def buildIndexFrom : Nat → List String → Idx → Idx
  | _, [], d => d
  | i, v :: rest, d => buildIndexFrom (i + 1) rest (insertIdx d v i)

/-- `{val: idx for idx, val in enumerate(vals)}`. -/
def buildIndex (vals : List String) : Idx :=
  buildIndexFrom 0 vals []

/-- `d.get(k)` / `d[k]`: value of key `k`, if present. -/
def idxFind (d : Idx) (k : String) : Option Nat :=
  (d.find? (fun p => p.1 == k)).map Prod.snd

/-! ## Configuration constants (app.py lines 12-19, default values). -/

def PHONE_COL : String := "phone_number"

def CONTRACT_COL : String := "contract_code"

def DEFAULT_FIELDS : List String :=
  ["contract_code", "platform", "status", "average_arpu",
   "service_type", "activation_date"]

/-! ## Data loading (`load_data`, app.py lines 47-79).
The input is the parsed CSV after `dtype=str` and `fillna("")`: a
column-name list and one cell list per row (pandas guarantees the
table is rectangular, so each cell list has one entry per column). -/

/-- The parsed source table handed to `load_data`. -/
structure Table where
  cols : List String
  cells : List (List String)

/-- One parsed row as a record. -/
def mkRow (cols : List String) (cs : List String) : Row :=
  cols.zip cs

/-- The rows exactly as parsed (`pd.read_csv(..., dtype=str).fillna("")`). -/
def rawRows (input : Table) : List Row :=
  input.cells.map (mkRow input.cols)

/-- `df[PHONE_COL].apply(normalize_phone)` restricted to one row:
the phone cell is normalized, every other cell kept. -/
def normalizeRow (r : Row) : Row :=
  r.map (fun p => (p.1, if p.1 == PHONE_COL then normalize_phone p.2 else p.2))

/-- Lines 56-57: normalize the phone column when it exists. -/
def normalizedRows (input : Table) : List Row :=
  if input.cols.contains PHONE_COL then (rawRows input).map normalizeRow
  else rawRows input

/-- `df.loc[49, [CONTRACT_COL, PHONE_COL]] = ["1234566789",
normalize_phone("+393478933194")]` restricted to the touched row. -/
def patchRow (r : Row) : Row :=
  r.map (fun p => (p.1,
    if p.1 == CONTRACT_COL then "1234566789"
    else if p.1 == PHONE_COL then normalize_phone "+393478933194"
    else p.2))

/-- Lines 65-67: overwrite row 49 when the table has more than 49 rows. -/
def patchedRows (rows : List Row) : List Row :=
  if rows.length > 49 then rows.set 49 (patchRow (rows.getD 49 []))
  else rows

/-- `df[c]` as a list of values (a present column of a rectangular
table; the default never fires there). -/
def colVals (rows : List Row) (c : String) : List String :=
  rows.map (fun r => rowGetD r c "")

/-- The loaded state: the dataframe plus the two indices, the global
triple `df, phone_idx, contract_idx` of app.py line 83. -/
structure LoadResult where
  rows : List Row
  phone_idx : Idx
  contract_idx : Idx

/-- Lines 60-61: required columns and the missing ones. -/
def missingCols (input : Table) : List String :=
  ([PHONE_COL, CONTRACT_COL] ++ DEFAULT_FIELDS).filter
    (fun c => !input.cols.contains c)

/-- `load_data()`: normalize the phone column, validate the required
columns, patch row 49 when present, build both indices. -/
def load_data (input : Table) : Except String LoadResult :=
  if !(missingCols input).isEmpty then
    Except.error
      ("Missing required columns: " ++ String.intercalate ", " (missingCols input))
  else
    let rows2 := patchedRows (normalizedRows input)
    Except.ok
      { rows := rows2
        phone_idx := buildIndex (colVals rows2 PHONE_COL)
        contract_idx := buildIndex (colVals rows2 CONTRACT_COL) }

/-! ## Handlers (app.py lines 89-248). Flask `abort(code, description)`
with the registered error handlers yields a `detail` envelope; we model
the outcome as an `Except` over an error taxonomy. -/

inductive ApiError where
  | badRequest (detail : String)
  | notFound (detail : String)
  | internal (detail : String)
  deriving DecidableEq, Repr

deriving instance DecidableEq for Except

/-- `slice_row(rec, cols)` (app.py lines 89-91): keep the requested
columns that exist in the record, in requested order. -/
def slice_row (rec : Row) (cols : List String) : List (String × String) :=
  cols.filterMap (fun c => (rowFind rec c).map (fun v => (c, v)))

/-- `fields.split(",") if fields else DEFAULT_FIELDS`: an absent or
empty `fields` query parameter selects the default list. -/
def wantedOf (fields : Option String) : List String :=
  match fields with
  | some fs => if fs.isEmpty then DEFAULT_FIELDS else fs.splitOn ","
  | none => DEFAULT_FIELDS

/-- `GET /customer/phone/<phone>` (app.py lines 112-127). -/
def get_by_phone (st : LoadResult) (phone : String) (fields : Option String) :
    Except ApiError (List (String × String)) :=
  let normalized_phone := normalize_phone phone
  match idxFind st.phone_idx normalized_phone with
  | none => Except.error (.notFound ("Phone number not found: " ++ normalized_phone))
  | some pos =>
    match st.rows.get? pos with
    | none => Except.error (.internal "Internal error retrieving phone data")
    | some rec => Except.ok (slice_row rec (wantedOf fields))

/-- `GET /customer/contract/<contract_code>` (app.py lines 129-142). -/
def get_by_contract (st : LoadResult) (contract_code : String)
    (fields : Option String) : Except ApiError (List (String × String)) :=
  if contract_code.isEmpty then
    Except.error (.badRequest "Contract code is required")
  else
    match idxFind st.contract_idx contract_code with
    | none => Except.error (.notFound "Contract code not found")
    | some pos =>
      match st.rows.get? pos with
      | none => Except.error (.internal "Internal error retrieving contract data")
      | some rec => Except.ok (slice_row rec (wantedOf fields))

/-- `int(rec.get(field, 0))` inside the surrounding try/except: absent
field gives the integer default 0; a present string that `int` cannot
parse raises and surfaces as the internal-error branch. -/
def numField (rec : Row) (field : String) (errDetail : String) :
    Except ApiError Int :=
  match rowFind rec field with
  | none => Except.ok 0
  | some v =>
    match pyIntParse v with
    | some n => Except.ok n
    | none => Except.error (.internal errDetail)

/-- `GET /customer/numTec/<contract_code>` (app.py lines 143-153). -/
def get_num_tec (st : LoadResult) (contract_code : String) :
    Except ApiError Int :=
  match idxFind st.contract_idx contract_code with
  | none => Except.error (.notFound "Contract code not found")
  | some pos =>
    match st.rows.get? pos with
    | none => Except.error (.internal "Internal error retrieving numTec")
    | some rec => numField rec "num_contact_tec" "Internal error retrieving numTec"

/-- `GET /customer/numAmm/<contract_code>` (app.py lines 155-165). -/
def get_num_amm (st : LoadResult) (contract_code : String) :
    Except ApiError Int :=
  match idxFind st.contract_idx contract_code with
  | none => Except.error (.notFound "Contract code not found")
  | some pos =>
    match st.rows.get? pos with
    | none => Except.error (.internal "Internal error retrieving numAmm")
    | some rec => numField rec "num_contact_amm" "Internal error retrieving numAmm"

/-- `GET /customer/wifiActive/<contract_code>` (app.py lines 167-177). -/
def get_wifi_active (st : LoadResult) (contract_code : String) :
    Except ApiError Int :=
  match idxFind st.contract_idx contract_code with
  | none => Except.error (.notFound "Contract code not found")
  | some pos =>
    match st.rows.get? pos with
    | none => Except.error (.internal "Internal error retrieving wifiActive")
    | some rec => numField rec "bb_active" "Internal error retrieving wifiActive"

/-- `GET /customer/userName/<contract_code>` (app.py lines 179-189):
`rec.get("user_name", "")`, no parsing. -/
def get_user_name (st : LoadResult) (contract_code : String) :
    Except ApiError String :=
  match idxFind st.contract_idx contract_code with
  | none => Except.error (.notFound "Contract code not found")
  | some pos =>
    match st.rows.get? pos with
    | none => Except.error (.internal "Internal error retrieving userName")
    | some rec => Except.ok (rowGetD rec "user_name" "")

/-- `GET /phone/numTec/<phone>` (app.py lines 192-203). -/
def get_num_tec_by_phone (st : LoadResult) (phone : String) :
    Except ApiError Int :=
  let normalized_phone := normalize_phone phone
  match idxFind st.phone_idx normalized_phone with
  | none => Except.error (.notFound "Phone number not found")
  | some pos =>
    match st.rows.get? pos with
    | none => Except.error (.internal "Internal error retrieving numTec")
    | some rec => numField rec "num_contact_tec" "Internal error retrieving numTec"

/-- `GET /phone/numAmm/<phone>` (app.py lines 205-216). -/
def get_num_amm_by_phone (st : LoadResult) (phone : String) :
    Except ApiError Int :=
  let normalized_phone := normalize_phone phone
  match idxFind st.phone_idx normalized_phone with
  | none => Except.error (.notFound "Phone number not found")
  | some pos =>
    match st.rows.get? pos with
    | none => Except.error (.internal "Internal error retrieving numAmm")
    | some rec => numField rec "num_contact_amm" "Internal error retrieving numAmm"

/-- `GET /phone/wifiActive/<phone>` (app.py lines 218-229). -/
def get_wifi_active_by_phone (st : LoadResult) (phone : String) :
    Except ApiError Int :=
  let normalized_phone := normalize_phone phone
  match idxFind st.phone_idx normalized_phone with
  | none => Except.error (.notFound "Phone number not found")
  | some pos =>
    match st.rows.get? pos with
    | none => Except.error (.internal "Internal error retrieving wifiActive")
    | some rec => numField rec "bb_active" "Internal error retrieving wifiActive"

/-- `GET /phone/userName/<phone>` (app.py lines 231-242). -/
def get_user_name_by_phone (st : LoadResult) (phone : String) :
    Except ApiError String :=
  let normalized_phone := normalize_phone phone
  match idxFind st.phone_idx normalized_phone with
  | none => Except.error (.notFound "Phone number not found")
  | some pos =>
    match st.rows.get? pos with
    | none => Except.error (.internal "Internal error retrieving userName")
    | some rec => Except.ok (rowGetD rec "user_name" "")

/-! ## Lemmas about the dict/index model. -/

/-- Position (counting from `i`) of the last occurrence of `k`. -/
def lastOccFrom : Nat → List String → String → Option Nat
  | _, [], _ => none
  | i, v :: rest, k =>
    match lastOccFrom (i + 1) rest k with
    | some j => some j
    | none => if v == k then some i else none

theorem idxFind_cons (k2 : String) (v2 : Nat) (d : Idx) (k : String) :
    idxFind ((k2, v2) :: d) k = if k2 = k then some v2 else idxFind d k := by
  by_cases h : k2 = k
  · rw [if_pos h]
    unfold idxFind
    rw [List.find?_cons_of_pos _ (by simpa using h)]
    rfl
  · rw [if_neg h]
    unfold idxFind
    rw [List.find?_cons_of_neg _ (by simpa using h)]

theorem idxFind_insertIdx (d : Idx) (v : String) (i : Nat) (k : String) :
    idxFind (insertIdx d v i) k = idxFind ((v, i) :: d) k := by
  induction d with
  | nil => rfl
  | cons p rest ih =>
    obtain ⟨k2, v2⟩ := p
    simp only [insertIdx]
    by_cases h2 : k2 = v
    · subst h2
      rw [if_pos (by simp)]
      rw [idxFind_cons, idxFind_cons, idxFind_cons]
      by_cases hk : k2 = k <;> simp [hk]
    · rw [if_neg (by simpa using h2)]
      simp only [idxFind_cons, ih]
      by_cases hk : k2 = k
      · subst hk
        have hvk : ¬ v = k2 := fun h => h2 h.symm
        simp [hvk]
      · simp [hk]

theorem idxFind_buildIndexFrom (vals : List String) :
    ∀ (i : Nat) (d : Idx) (k : String),
      idxFind (buildIndexFrom i vals d) k =
        match lastOccFrom i vals k with
        | some j => some j
        | none => idxFind d k := by
  induction vals with
  | nil => intro i d k; rfl
  | cons v rest ih =>
    intro i d k
    have step : idxFind (buildIndexFrom i (v :: rest) d) k =
        idxFind (buildIndexFrom (i + 1) rest (insertIdx d v i)) k := rfl
    rw [step, ih]
    rw [idxFind_insertIdx]
    by_cases hvk : v = k
    · simp only [lastOccFrom, idxFind, List.find?, hvk, beq_self_eq_true]
      cases lastOccFrom (i + 1) rest k with
      | none => simp
      | some j => simp
    · have hvk2 : (v == k) = false := by simp [hvk]
      simp only [lastOccFrom, idxFind, List.find?, hvk2]
      cases lastOccFrom (i + 1) rest k with
      | none => simp [idxFind]
      | some j => simp

theorem lastOccFrom_eq_none (vals : List String) :
    ∀ (i : Nat) (k : String),
      lastOccFrom i vals k = none ↔ ∀ t, vals.get? t ≠ some k := by
  induction vals with
  | nil => intro i k; simp [lastOccFrom]
  | cons v rest ih =>
    intro i k
    constructor
    · intro h t
      simp only [lastOccFrom] at h
      cases hl : lastOccFrom (i + 1) rest k with
      | some j => rw [hl] at h; exact absurd h (by simp)
      | none =>
        rw [hl] at h
        have hvk : ¬ v = k := by
          intro hv; rw [if_pos (by simp [hv])] at h; exact absurd h (by simp)
        cases t with
        | zero => simp [hvk]
        | succ t2 => simpa using (ih (i + 1) k).mp hl t2
    · intro h
      have hrest : lastOccFrom (i + 1) rest k = none :=
        (ih (i + 1) k).mpr (fun t => by simpa using h (t + 1))
      have hvk : ¬ v = k := by simpa using h 0
      simp [lastOccFrom, hrest, hvk]

theorem lastOccFrom_eq_some (vals : List String) :
    ∀ (i : Nat) (k : String) (j : Nat),
      lastOccFrom i vals k = some j →
        ∃ t, j = i + t ∧ vals.get? t = some k ∧
          ∀ m, t < m → vals.get? m ≠ some k := by
  induction vals with
  | nil => intro i k j h; exact absurd h (by simp [lastOccFrom])
  | cons v rest ih =>
    intro i k j h
    simp only [lastOccFrom] at h
    cases hl : lastOccFrom (i + 1) rest k with
    | some j2 =>
      rw [hl] at h
      have hj : j = j2 := by simpa using h.symm
      obtain ⟨t2, ht2, hget, hlast⟩ := ih (i + 1) k j2 hl
      refine ⟨t2 + 1, by omega, by simpa using hget, ?_⟩
      intro m hm
      cases m with
      | zero => omega
      | succ m2 => simpa using hlast m2 (by omega)
    | none =>
      rw [hl] at h
      have hvk : v = k := by
        by_contra hvk
        rw [if_neg (by simp [hvk])] at h
        exact absurd h (by simp)
      have hj : j = i := by
        rw [if_pos (by simp [hvk])] at h
        simpa using h.symm
      refine ⟨0, by omega, by simp [hvk], ?_⟩
      intro m hm
      cases m with
      | zero => omega
      | succ m2 =>
        simpa using (lastOccFrom_eq_none rest (i + 1) k).mp hl m2

/-- A key is always mapped to the last row position holding it:
the two-sided characterization of the dict comprehension. -/
theorem idxFind_buildIndex (vals : List String) (k : String) (j : Nat) :
    idxFind (buildIndex vals) k = some j ↔
      vals.get? j = some k ∧ ∀ m, j < m → vals.get? m ≠ some k := by
  have h := idxFind_buildIndexFrom vals 0 [] k
  have hnil : idxFind ([] : Idx) k = none := rfl
  rw [hnil] at h
  have hcollapse : idxFind (buildIndex vals) k = lastOccFrom 0 vals k := by
    rw [show buildIndex vals = buildIndexFrom 0 vals [] from rfl, h]
    cases lastOccFrom 0 vals k <;> rfl
  rw [hcollapse]
  constructor
  · intro hsome
    obtain ⟨t, ht, hget, hlast⟩ := lastOccFrom_eq_some vals 0 k j hsome
    have : j = t := by omega
    subst this
    exact ⟨hget, hlast⟩
  · rintro ⟨hget, hlast⟩
    cases hl : lastOccFrom 0 vals k with
    | none => exact absurd hget ((lastOccFrom_eq_none vals 0 k).mp hl j)
    | some j0 =>
      obtain ⟨t0, ht0, hget0, hlast0⟩ := lastOccFrom_eq_some vals 0 k j0 hl
      have heq : t0 = j := by
        rcases Nat.lt_trichotomy t0 j with hlt | heq | hgt
        · exact absurd hget (hlast0 j hlt)
        · exact heq
        · exact absurd hget0 (hlast t0 hgt)
      have hj : j0 = j := by omega
      rw [hj]

/-- Any stored position is the position of an actual element. -/
theorem idxFind_buildIndex_lt (vals : List String) (k : String) (j : Nat)
    (h : idxFind (buildIndex vals) k = some j) : j < vals.length := by
  have := ((idxFind_buildIndex vals k j).mp h).1
  have hlt := List.get?_eq_some.mp this
  exact hlt.1

/-! ## Lemmas about phone normalization. -/

theorem phoneChar_not_ws {c : Char} (h : isPhoneChar c = true) :
    c.isWhitespace = false := by
  cases hw : c.isWhitespace with
  | false => rfl
  | true =>
    have hc : ((c = ' ' ∨ c = '\t') ∨ c = '\r') ∨ c = '\n' := by
      simpa [Char.isWhitespace] using hw
    rcases hc with ((h1 | h1) | h1) | h1 <;> (subst h1; exact absurd h (by decide))

theorem phoneChar_kept {c : Char} (h : isPhoneChar c = true) :
    (!(c == ' ' || c == '-')) = true := by
  by_cases hs : c = ' '
  · subst hs; exact absurd h (by decide)
  · by_cases hh : c = '-'
    · subst hh; exact absurd h (by decide)
    · simp [hs, hh]

theorem dropWhile_eq_self_of_all {p : Char → Bool} {l : List Char}
    (h : ∀ c ∈ l, p c = false) : l.dropWhile p = l := by
  cases l with
  | nil => rfl
  | cons a t =>
    rw [List.dropWhile_cons, if_neg (by simp [h a (by simp)])]

theorem stripL_eq_self {l : List Char}
    (h : ∀ c ∈ l, c.isWhitespace = false) : stripL l = l := by
  unfold stripL
  rw [dropWhile_eq_self_of_all h,
    dropWhile_eq_self_of_all (fun c hc => h c (List.mem_reverse.mp hc)),
    List.reverse_reverse]

theorem cleanL_eq_self {l : List Char}
    (h : ∀ c ∈ l, isPhoneChar c = true) : cleanL l = l := by
  unfold cleanL
  rw [stripL_eq_self (fun c hc => phoneChar_not_ws (h c hc))]
  exact List.filter_eq_self.mpr (fun c hc => phoneChar_kept (h c hc))

theorem phonePattern_all {l : List Char} (h : phonePattern l = true) :
    ∀ c ∈ l, isPhoneChar c = true := by
  have := (Bool.and_eq_true _ _).mp h
  simpa [List.all_eq_true] using this.2

/-- An already-normalized value `'+' :: t` is a fixed point. -/
theorem normalize_phoneL_plus (t : List Char)
    (htall : ∀ c ∈ t, isPhoneChar c = true) :
    normalize_phoneL ('+' :: t) = '+' :: t := by
  have hall : ∀ c ∈ '+' :: t, isPhoneChar c = true := by
    intro c hc
    rcases List.mem_cons.mp hc with h1 | h1
    · subst h1; decide
    · exact htall c h1
  have hpat : phonePattern ('+' :: t) = true := by
    simp only [phonePattern, List.isEmpty_cons, Bool.not_false, Bool.true_and,
      List.all_eq_true]
    exact hall
  have hclean : cleanL ('+' :: t) = '+' :: t := cleanL_eq_self hall
  have h00 : startsWithL ('+' :: t) ['0', '0'] = false := rfl
  have hp : startsWithL ('+' :: t) ['+'] = true := by
    simp [startsWithL]
  unfold normalize_phoneL
  rw [hclean]
  simp [hpat, h00, hp]

/-- The output of a successful normalization starts with `'+'` and
keeps only digit/plus characters. -/
theorem normalize_phoneL_shape {l : List Char} (h : phonePattern l = true) :
    ∃ t, normalize_phoneL l = '+' :: t ∧ ∀ c ∈ t, isPhoneChar c = true := by
  have hall : ∀ c ∈ l, isPhoneChar c = true := phonePattern_all h
  have hclean : cleanL l = l := cleanL_eq_self hall
  unfold normalize_phoneL
  rw [hclean]
  by_cases h00 : startsWithL l ['0', '0'] = true
  · refine ⟨l.drop 2, by simp [h, h00], fun c hc => hall c ?_⟩
    exact List.mem_of_mem_drop hc
  · by_cases hp : startsWithL l ['+'] = true
    · cases l with
      | nil => exact absurd h (by decide)
      | cons a t1 =>
        have ha : a = '+' := by
          have ha2 : (a == '+') = true := by
            simpa [startsWithL] using hp
          simpa using ha2
        subst ha
        refine ⟨t1, ?_, fun c hc => hall c (by simp [hc])⟩
        simp [h, h00, hp]
    · by_cases h39 : startsWithL l ['3', '9'] = true
      · exact ⟨l, by simp [h, h00, hp, h39], hall⟩
      · exact ⟨l, by simp [h, h00, hp, h39], hall⟩

/-- Idempotence of the list-level normalizer on pattern inputs. -/
theorem normalize_phoneL_idem {l : List Char} (h : phonePattern l = true) :
    normalize_phoneL (normalize_phoneL l) = normalize_phoneL l := by
  obtain ⟨t, ht, htall⟩ := normalize_phoneL_shape h
  rw [ht, normalize_phoneL_plus t htall]

/-! ## Lemmas about rows and loading. -/

theorem rowFind_cons (k v : String) (r : Row) (c : String) :
    rowFind ((k, v) :: r) c = if k = c then some v else rowFind r c := by
  by_cases h : k = c
  · rw [if_pos h]
    unfold rowFind
    rw [List.find?_cons_of_pos _ (by simpa using h)]
    rfl
  · rw [if_neg h]
    unfold rowFind
    rw [List.find?_cons_of_neg _ (by simpa using h)]

/-- Finding a column in a row rewritten by a key-preserving cell map. -/
theorem rowFind_map_keyed (g : String → String → String) (r : Row) (c : String) :
    rowFind (r.map (fun p => (p.1, g p.1 p.2))) c = (rowFind r c).map (g c) := by
  induction r with
  | nil => rfl
  | cons p rest ih =>
    obtain ⟨k, v⟩ := p
    simp only [List.map_cons]
    rw [rowFind_cons, rowFind_cons]
    by_cases hk : k = c
    · subst hk; simp
    · simp [hk, ih]

theorem rowFind_normalizeRow (r : Row) :
    rowFind (normalizeRow r) PHONE_COL =
      (rowFind r PHONE_COL).map normalize_phone := by
  have h := rowFind_map_keyed
    (fun k v => if k == PHONE_COL then normalize_phone v else v) r PHONE_COL
  refine h.trans ?_
  cases rowFind r PHONE_COL <;> simp

theorem rowFind_patchRow_phone (r : Row) :
    rowFind (patchRow r) PHONE_COL =
      (rowFind r PHONE_COL).map (fun _ => normalize_phone "+393478933194") := by
  have h := rowFind_map_keyed
    (fun k v =>
      if k == CONTRACT_COL then "1234566789"
      else if k == PHONE_COL then normalize_phone "+393478933194"
      else v) r PHONE_COL
  refine h.trans ?_
  have h1 : (PHONE_COL == CONTRACT_COL) = false := rfl
  have h2 : (PHONE_COL == PHONE_COL) = true := rfl
  cases rowFind r PHONE_COL <;> simp [h1, h2]

/-- Shape of a successful load. -/
theorem load_data_ok {input : Table} {res : LoadResult}
    (h : load_data input = Except.ok res) :
    (missingCols input).isEmpty = true ∧
    res.rows = patchedRows (normalizedRows input) ∧
    res.phone_idx = buildIndex (colVals res.rows PHONE_COL) ∧
    res.contract_idx = buildIndex (colVals res.rows CONTRACT_COL) := by
  unfold load_data at h
  by_cases hm : (missingCols input).isEmpty = true
  · rw [if_neg (by simp [hm])] at h
    injection h with h2
    subst h2
    exact ⟨hm, rfl, rfl, rfl⟩
  · rw [if_pos (by simpa using hm)] at h
    exact absurd h (by simp)

/-- A successful load means both designated columns are present. -/
theorem load_data_cols {input : Table} {res : LoadResult}
    (h : load_data input = Except.ok res) :
    input.cols.contains PHONE_COL = true ∧
    input.cols.contains CONTRACT_COL = true := by
  have hm := (load_data_ok h).1
  have hnil : missingCols input = [] := List.isEmpty_iff.mp hm
  unfold missingCols at hnil
  have hall := List.filter_eq_nil_iff.mp hnil
  constructor
  · simpa using hall PHONE_COL (by simp)
  · simpa using hall CONTRACT_COL (by simp)

/-- The phone column value stored for row `i`, `none` when there is no
row `i`, `some none` when the row lacks the column. -/
def storedPhoneAt (res : LoadResult) (i : Nat) : Option (Option String) :=
  (res.rows.get? i).map (fun r => rowFind r PHONE_COL)

/-- The raw source-file phone value of row `i`. -/
def rawPhoneAt (input : Table) (i : Nat) : Option (Option String) :=
  ((rawRows input).get? i).map (fun r => rowFind r PHONE_COL)

/-! ## Concrete data for witnesses and counterexamples. -/

/-- A three-row source table with a duplicate phone value. -/
def witTable : Table :=
  { cols := ["phone_number", "contract_code", "platform", "status",
             "average_arpu", "service_type", "activation_date"]
    cells := [["391", "A", "p1", "s1", "r1", "t1", "d1"],
              ["00392", "B", "p2", "s2", "r2", "t2", "d2"],
              ["391", "C", "p3", "s3", "r3", "t3", "d3"]] }

/-- A fifty-row source table, large enough to trigger the row-49 patch. -/
def patchTable : Table :=
  { cols := ["phone_number", "contract_code", "platform", "status",
             "average_arpu", "service_type", "activation_date"]
    cells := List.replicate 50 ["123", "A", "p", "s", "r", "t", "d"] }

/-- The state a successful load produces (dummy empty state otherwise),
used to state closed facts about loaded data. -/
def loadedOrEmpty (input : Table) : LoadResult :=
  match load_data input with
  | Except.ok res => res
  | Except.error _ => { rows := [], phone_idx := [], contract_idx := [] }

/-! ## Claims. -/

/-- C4: `normalize_phone` is idempotent: for every input string matching
the digit/plus pattern, applying it twice gives the same result as
applying it once. -/
theorem c4_normalize_phone_idempotent (x : String)
    (h : phonePattern x.data = true) :
    normalize_phone (normalize_phone x) = normalize_phone x :=
  congrArg String.mk (normalize_phoneL_idem h)

theorem c4_normalize_phone_idempotent_witness :
    phonePattern ("391234567" : String).data = true ∧
      normalize_phone (normalize_phone "391234567") = normalize_phone "391234567" :=
  ⟨by decide, c4_normalize_phone_idempotent "391234567" (by decide)⟩

/-- C5: `normalize_phone` strips whitespace and removes spaces and
hyphens (`cleanPhone`), returns a cleaned value failing the digit/plus
pattern unchanged, and otherwise applies the first matching rule in
order: leading `00` replaced by `+`, leading `+` kept, leading `39`
prefixed with `+`, anything else prefixed with `+`; in particular the
four spec examples hold. -/
theorem c5_normalize_phone_rules :
    normalize_phone "003471234567" = "+3471234567" ∧
    normalize_phone "+391234567" = "+391234567" ∧
    normalize_phone "391234567" = "+391234567" ∧
    normalize_phone "abc123" = "abc123" ∧
    (∀ s : String, phonePattern (cleanPhone s).data = false →
      normalize_phone s = cleanPhone s) ∧
    (∀ s : String, phonePattern (cleanPhone s).data = true →
      (startsWithL (cleanPhone s).data ['0', '0'] = true →
        normalize_phone s = String.mk ('+' :: (cleanPhone s).data.drop 2)) ∧
      (startsWithL (cleanPhone s).data ['0', '0'] = false →
        startsWithL (cleanPhone s).data ['+'] = true →
        normalize_phone s = cleanPhone s) ∧
      (startsWithL (cleanPhone s).data ['0', '0'] = false →
        startsWithL (cleanPhone s).data ['+'] = false →
        startsWithL (cleanPhone s).data ['3', '9'] = true →
        normalize_phone s = String.mk ('+' :: (cleanPhone s).data)) ∧
      (startsWithL (cleanPhone s).data ['0', '0'] = false →
        startsWithL (cleanPhone s).data ['+'] = false →
        startsWithL (cleanPhone s).data ['3', '9'] = false →
        normalize_phone s = String.mk ('+' :: (cleanPhone s).data))) := by
  refine ⟨by decide, by decide, by decide, by decide, ?_, ?_⟩
  · intro s hs
    have hs2 : phonePattern (cleanL s.data) = false := hs
    unfold normalize_phone normalize_phoneL cleanPhone
    simp [hs2]
  · intro s hs
    have hs2 : phonePattern (cleanL s.data) = true := hs
    refine ⟨fun h00 => ?_, fun h00 hp => ?_, fun h00 hp h39 => ?_,
      fun h00 hp h39 => ?_⟩
    · have h00b : startsWithL (cleanL s.data) ['0', '0'] = true := h00
      unfold normalize_phone normalize_phoneL cleanPhone
      simp [hs2, h00b]
    · have h00b : startsWithL (cleanL s.data) ['0', '0'] = false := h00
      have hpb : startsWithL (cleanL s.data) ['+'] = true := hp
      unfold normalize_phone normalize_phoneL cleanPhone
      simp [hs2, h00b, hpb]
    · have h00b : startsWithL (cleanL s.data) ['0', '0'] = false := h00
      have hpb : startsWithL (cleanL s.data) ['+'] = false := hp
      have h39b : startsWithL (cleanL s.data) ['3', '9'] = true := h39
      unfold normalize_phone normalize_phoneL cleanPhone
      simp [hs2, h00b, hpb, h39b]
    · have h00b : startsWithL (cleanL s.data) ['0', '0'] = false := h00
      have hpb : startsWithL (cleanL s.data) ['+'] = false := hp
      have h39b : startsWithL (cleanL s.data) ['3', '9'] = false := h39
      unfold normalize_phone normalize_phoneL cleanPhone
      simp [hs2, h00b, hpb, h39b]

theorem c5_normalize_phone_rules_witness :
    normalize_phone "12" = String.mk ('+' :: (cleanPhone "12").data) :=
  (c5_normalize_phone_rules.2.2.2.2.2 "12" (by decide)).2.2.2
    (by decide) (by decide) (by decide)

/-- C6: index building is deterministic (loading the same source twice
yields the same indices), both indices are the dict comprehension over
the respective stored column, and a key shared by several rows is
mapped to the position of the last such row in file order. -/
theorem c6_index_build_last_wins (input : Table) (res : LoadResult)
    (h : load_data input = Except.ok res) :
    (∀ res2, load_data input = Except.ok res2 → res2 = res) ∧
    res.phone_idx = buildIndex (colVals res.rows PHONE_COL) ∧
    res.contract_idx = buildIndex (colVals res.rows CONTRACT_COL) ∧
    (∀ k j, idxFind res.phone_idx k = some j ↔
      (colVals res.rows PHONE_COL).get? j = some k ∧
        ∀ m, j < m → (colVals res.rows PHONE_COL).get? m ≠ some k) ∧
    (∀ k j, idxFind res.contract_idx k = some j ↔
      (colVals res.rows CONTRACT_COL).get? j = some k ∧
        ∀ m, j < m → (colVals res.rows CONTRACT_COL).get? m ≠ some k) := by
  obtain ⟨hm, hrows, hpidx, hcidx⟩ := load_data_ok h
  refine ⟨?_, hpidx, hcidx, ?_, ?_⟩
  · intro res2 h2
    rw [h] at h2
    injection h2 with h3
    exact h3.symm
  · intro k j
    rw [hpidx]
    exact idxFind_buildIndex (colVals res.rows PHONE_COL) k j
  · intro k j
    rw [hcidx]
    exact idxFind_buildIndex (colVals res.rows CONTRACT_COL) k j

theorem c6_index_build_last_wins_witness :
    idxFind (loadedOrEmpty witTable).phone_idx "+391" = some 2 := by
  obtain ⟨res, hres⟩ : ∃ r, load_data witTable = Except.ok r := ⟨_, rfl⟩
  have hobs : loadedOrEmpty witTable = res := by
    unfold loadedOrEmpty
    rw [hres]
  rw [hobs]
  have h := (c6_index_build_last_wins witTable res hres).2.2.2.1 "+391" 2
  refine h.mpr ⟨?_, ?_⟩
  · rw [← hobs]
    decide
  · intro m hm hcon
    have hlen : (colVals res.rows PHONE_COL).length = 3 := by
      rw [← hobs]
      decide
    rw [List.get?_eq_none.mpr (by omega)] at hcon
    exact Option.noConfusion hcon

/-- C9: every position stored in either index of a successful load is a
valid row position of the loaded store, so the row fetch for a key
found in an index always succeeds. -/
theorem c9_index_positions_valid (input : Table) (res : LoadResult)
    (h : load_data input = Except.ok res) (k : String) (j : Nat)
    (hk : idxFind res.phone_idx k = some j ∨
      idxFind res.contract_idx k = some j) :
    j < res.rows.length ∧ (res.rows.get? j).isSome = true := by
  obtain ⟨hm, hrows, hpidx, hcidx⟩ := load_data_ok h
  have hj : j < res.rows.length := by
    rcases hk with hk | hk
    · rw [hpidx] at hk
      have := idxFind_buildIndex_lt _ _ _ hk
      simpa [colVals] using this
    · rw [hcidx] at hk
      have := idxFind_buildIndex_lt _ _ _ hk
      simpa [colVals] using this
  refine ⟨hj, ?_⟩
  rw [List.get?_eq_get hj]
  rfl

theorem c9_index_positions_valid_witness :
    2 < (loadedOrEmpty witTable).rows.length ∧
      ((loadedOrEmpty witTable).rows.get? 2).isSome = true := by
  obtain ⟨res, hres⟩ : ∃ r, load_data witTable = Except.ok r := ⟨_, rfl⟩
  have hobs : loadedOrEmpty witTable = res := by
    unfold loadedOrEmpty
    rw [hres]
  have hk : idxFind (loadedOrEmpty witTable).phone_idx "+391" = some 2 := by
    decide
  rw [hobs] at hk ⊢
  exact c9_index_positions_valid witTable res hres "+391" 2 (Or.inl hk)

/-- C2 counterexample: on a fifty-row source whose row 49 holds raw
phone `"123"`, the loaded store holds `"+393478933194"` at row 49 (the
fixed patch value), not `normalize_phone "123" = "+123"`, so the claim
that every stored phone equals the normalization of that row's raw
source value is false once the patch applies. -/
theorem c2_counterexample :
    ¬ (∀ (input : Table) (res : LoadResult), load_data input = Except.ok res →
        ∀ i, storedPhoneAt res i =
          (rawPhoneAt input i).map (Option.map normalize_phone)) := by
  intro hclaim
  obtain ⟨res, hres, hval⟩ :
      ∃ res, load_data patchTable = Except.ok res ∧
        storedPhoneAt res 49 = some (some "+393478933194") := ⟨_, rfl, rfl⟩
  have h49 := hclaim patchTable res hres 49
  rw [hval] at h49
  have hraw : (rawPhoneAt patchTable 49).map (Option.map normalize_phone) =
      some (some "+123") := rfl
  rw [hraw] at h49
  exact absurd h49 (by decide)

/-- C2 amended: for every row of the loaded store other than row 49 the
phone column holds `normalize_phone` of that row's raw source value;
when the store has more than 49 rows, row 49's phone column instead
holds the patch literal `normalize_phone "+393478933194"`. -/
theorem c2_phone_column_normalized (input : Table) (res : LoadResult)
    (h : load_data input = Except.ok res) :
    (∀ i, i ≠ 49 ∨ res.rows.length ≤ 49 →
      storedPhoneAt res i =
        (rawPhoneAt input i).map (Option.map normalize_phone)) ∧
    (49 < res.rows.length →
      storedPhoneAt res 49 =
        (rawPhoneAt input 49).map
          (Option.map (fun _ => normalize_phone "+393478933194"))) := by
  obtain ⟨hm, hrows, hpidx, hcidx⟩ := load_data_ok h
  have hcont : input.cols.contains PHONE_COL = true := (load_data_cols h).1
  have hnorm : normalizedRows input = (rawRows input).map normalizeRow := by
    unfold normalizedRows
    rw [if_pos hcont]
  have hnlen : (normalizedRows input).length = (rawRows input).length := by
    rw [hnorm, List.length_map]
  have hreslen : res.rows.length = (normalizedRows input).length := by
    rw [hrows]
    unfold patchedRows
    by_cases h49 : (normalizedRows input).length > 49
    · rw [if_pos h49, List.length_set]
    · rw [if_neg h49]
  constructor
  · intro i hi
    unfold storedPhoneAt rawPhoneAt
    rw [hrows]
    unfold patchedRows
    by_cases h49 : (normalizedRows input).length > 49
    · have hne : i ≠ 49 := by
        rcases hi with hi | hi
        · exact hi
        · omega
      rw [if_pos h49, List.get?_set_ne _ _ (Ne.symm hne), hnorm, List.get?_map]
      cases (rawRows input).get? i with
      | none => rfl
      | some r => simp [rowFind_normalizeRow]
    · rw [if_neg h49, hnorm, List.get?_map]
      cases (rawRows input).get? i with
      | none => rfl
      | some r => simp [rowFind_normalizeRow]
  · intro h49
    have h49n : (normalizedRows input).length > 49 := by omega
    have h49r : 49 < (rawRows input).length := by omega
    unfold storedPhoneAt rawPhoneAt
    rw [hrows]
    unfold patchedRows
    rw [if_pos h49n, List.get?_set_eq_of_lt _ h49n]
    have hr : (rawRows input).get? 49 =
        some ((rawRows input).get ⟨49, h49r⟩) := List.get?_eq_get h49r
    rw [hr]
    have hgetD : (normalizedRows input).getD 49 [] =
        normalizeRow ((rawRows input).get ⟨49, h49r⟩) := by
      rw [List.getD_eq_getElem?_getD, hnorm, List.getElem?_map,
        ← List.get?_eq_getElem?, hr]
      rfl
    rw [hgetD]
    show some (rowFind (patchRow (normalizeRow
        ((rawRows input).get ⟨49, h49r⟩))) PHONE_COL) =
      some ((rowFind ((rawRows input).get ⟨49, h49r⟩) PHONE_COL).map
        (fun _ => normalize_phone "+393478933194"))
    rw [rowFind_patchRow_phone, rowFind_normalizeRow]
    cases rowFind ((rawRows input).get ⟨49, h49r⟩) PHONE_COL <;> rfl

theorem c2_phone_column_normalized_witness :
    storedPhoneAt (loadedOrEmpty patchTable) 0 =
      (rawPhoneAt patchTable 0).map (Option.map normalize_phone) ∧
    storedPhoneAt (loadedOrEmpty patchTable) 49 =
      (rawPhoneAt patchTable 49).map
        (Option.map (fun _ => normalize_phone "+393478933194")) := by
  obtain ⟨res, hres⟩ : ∃ r, load_data patchTable = Except.ok r := ⟨_, rfl⟩
  have hobs : loadedOrEmpty patchTable = res := by
    unfold loadedOrEmpty
    rw [hres]
  have hlen : 49 < (loadedOrEmpty patchTable).rows.length := by decide
  rw [hobs] at hlen ⊢
  have h := c2_phone_column_normalized patchTable res hres
  exact ⟨h.1 0 (Or.inl (by omega)), h.2 hlen⟩

/-- A small loaded state used to exercise the handler claims: one row
reachable as phone `"+391"` and contract `"A"`. -/
def witState : LoadResult :=
  { rows := [[("phone_number", "+391"), ("contract_code", "A"),
              ("user_name", "Ann"), ("num_contact_tec", "2"),
              ("num_contact_amm", "x"), ("bb_active", "")]]
    phone_idx := [("+391", 0)]
    contract_idx := [("A", 0)] }

/-- C7: `get_by_phone` normalizes the raw phone first and fails
NotFound exactly when the normalized value is absent from the phone
index; `get_by_contract` fails BadRequest on the empty code and, for a
nonempty code, NotFound exactly when the code is absent from the
contract index; a failing call returns no record data. -/
theorem c7_generic_lookup_errors (st : LoadResult) (phone code : String)
    (fields : Option String) :
    ((∃ d, get_by_phone st phone fields = Except.error (ApiError.notFound d)) ↔
      idxFind st.phone_idx (normalize_phone phone) = none) ∧
    (code = "" →
      get_by_contract st code fields =
        Except.error (ApiError.badRequest "Contract code is required")) ∧
    (code ≠ "" →
      ((∃ d, get_by_contract st code fields =
          Except.error (ApiError.notFound d)) ↔
        idxFind st.contract_idx code = none)) ∧
    (∀ e, get_by_phone st phone fields = Except.error e →
      ∀ out, get_by_phone st phone fields ≠ Except.ok out) ∧
    (∀ e, get_by_contract st code fields = Except.error e →
      ∀ out, get_by_contract st code fields ≠ Except.ok out) := by
  refine ⟨?_, ?_, ?_, ?_, ?_⟩
  · simp only [get_by_phone]
    cases hf : idxFind st.phone_idx (normalize_phone phone) with
    | none => simp
    | some pos =>
      cases hg : st.rows[pos]? with
      | none => simp [hg]
      | some rec => simp [hg]
  · intro hc
    subst hc
    unfold get_by_contract
    rw [if_pos (by decide)]
  · intro hc
    unfold get_by_contract
    rw [if_neg (show ¬ code.isEmpty = true by
      simp [String.isEmpty_iff, hc])]
    cases hf : idxFind st.contract_idx code with
    | none => simp
    | some pos =>
      cases hg : st.rows[pos]? with
      | none => simp [hg]
      | some rec => simp [hg]
  · intro e he out
    rw [he]
    exact fun hcon => Except.noConfusion hcon
  · intro e he out
    rw [he]
    exact fun hcon => Except.noConfusion hcon

theorem c7_generic_lookup_errors_witness :
    get_by_contract witState "" none =
      Except.error (ApiError.badRequest "Contract code is required") ∧
    (∃ d, get_by_phone witState "zzz" none =
      Except.error (ApiError.notFound d)) :=
  ⟨(c7_generic_lookup_errors witState "zzz" "" none).2.1 rfl,
    ((c7_generic_lookup_errors witState "zzz" "" none).1).mpr (by decide)⟩

/-- C8: when a phone key and a contract key resolve through their
respective lookups to the same underlying row, `get_by_phone` and
`get_by_contract` return identical projected output for the same
`fields` selector. -/
theorem c8_same_row_same_output (st : LoadResult) (phone code : String)
    (pos : Nat) (rec : Row) (fields : Option String)
    (hp : idxFind st.phone_idx (normalize_phone phone) = some pos)
    (hc : idxFind st.contract_idx code = some pos)
    (hcode : code ≠ "")
    (hrec : st.rows.get? pos = some rec) :
    get_by_phone st phone fields = get_by_contract st code fields := by
  simp only [get_by_phone, get_by_contract, hp, hc, hrec]
  rw [if_neg (show ¬ code.isEmpty = true by
    simp [String.isEmpty_iff, hcode])]

theorem c8_same_row_same_output_witness :
    get_by_phone witState "391" none = get_by_contract witState "A" none :=
  c8_same_row_same_output witState "391" "A" 0
    [("phone_number", "+391"), ("contract_code", "A"), ("user_name", "Ann"),
     ("num_contact_tec", "2"), ("num_contact_amm", "x"), ("bb_active", "")]
    none (by decide) (by decide) (by decide) (by decide)

/-- C10: a `fields` query parameter supplied as the empty string is
treated exactly like an absent one: both generic lookups project with
the configured default field list. -/
theorem c10_empty_fields_defaults (st : LoadResult) (phone code : String) :
    wantedOf (some "") = DEFAULT_FIELDS ∧
    get_by_phone st phone (some "") = get_by_phone st phone none ∧
    get_by_contract st code (some "") = get_by_contract st code none :=
  ⟨rfl, rfl, rfl⟩

/-- Behavior of one numeric accessor outcome over its resolved record:
the parsed value when the stored string parses, `0` when the field is
absent, an internal error when the field is present but unparsable
(the empty string included). -/
def numAccessorSpec (out : Except ApiError Int) (rec : Row)
    (field : String) : Prop :=
  (rowFind rec field = none → out = Except.ok 0) ∧
  (∀ v n, rowFind rec field = some v → pyIntParse v = some n →
    out = Except.ok n) ∧
  (∀ v, rowFind rec field = some v → pyIntParse v = none →
    ∃ d, out = Except.error (ApiError.internal d))

theorem numField_spec (rec : Row) (field d : String) :
    numAccessorSpec (numField rec field d) rec field := by
  refine ⟨?_, ?_, ?_⟩
  · intro h
    simp [numField, h]
  · intro v n h1 h2
    simp [numField, h1, h2]
  · intro v h1 h2
    exact ⟨d, by simp [numField, h1, h2]⟩

/-- State for the numeric-accessor counterexample: the single row has
`num_contact_tec` present but equal to the empty string. -/
def emptyFieldState : LoadResult :=
  { rows := [[("contract_code", "A"), ("num_contact_tec", "")]]
    phone_idx := []
    contract_idx := [("A", 0)] }

/-- C1 counterexample: with `num_contact_tec` stored as the empty
string, `get_num_tec` surfaces an internal error (Python's `int("")`
raises inside the handler), not `0`, refuting the claim that an absent,
empty, or unparsable field always yields `0` and never an error. -/
theorem c1_counterexample :
    ¬ (∀ (st : LoadResult) (code : String) (pos : Nat) (rec : Row),
        idxFind st.contract_idx code = some pos →
        st.rows.get? pos = some rec →
        (rowFind rec "num_contact_tec" = none ∨
          rowFind rec "num_contact_tec" = some "" ∨
          (∀ v, rowFind rec "num_contact_tec" = some v →
            pyIntParse v = none)) →
        get_num_tec st code = Except.ok 0) := by
  intro hclaim
  have h := hclaim emptyFieldState "A" 0
    [("contract_code", "A"), ("num_contact_tec", "")] rfl rfl
    (Or.inr (Or.inl rfl))
  exact absurd h (by decide)

/-- C1 amended: every numeric single-field accessor, keyed by contract
code or by phone, returns the stored string parsed as an integer when
it parses, returns `0` when the field is absent from the resolved
record, and fails with an internal error when the field is present but
empty or otherwise unparsable. -/
theorem c1_numeric_accessor_defaults (st : LoadResult) (code phone : String)
    (pos : Nat) (rec : Row) :
    (idxFind st.contract_idx code = some pos → st.rows.get? pos = some rec →
      numAccessorSpec (get_num_tec st code) rec "num_contact_tec" ∧
      numAccessorSpec (get_num_amm st code) rec "num_contact_amm" ∧
      numAccessorSpec (get_wifi_active st code) rec "bb_active") ∧
    (idxFind st.phone_idx (normalize_phone phone) = some pos →
      st.rows.get? pos = some rec →
      numAccessorSpec (get_num_tec_by_phone st phone) rec "num_contact_tec" ∧
      numAccessorSpec (get_num_amm_by_phone st phone) rec "num_contact_amm" ∧
      numAccessorSpec (get_wifi_active_by_phone st phone) rec "bb_active") := by
  constructor
  · intro h1 h2
    refine ⟨?_, ?_, ?_⟩
    · rw [show get_num_tec st code = numField rec "num_contact_tec"
        "Internal error retrieving numTec" by simp only [get_num_tec, h1, h2]]
      exact numField_spec rec _ _
    · rw [show get_num_amm st code = numField rec "num_contact_amm"
        "Internal error retrieving numAmm" by simp only [get_num_amm, h1, h2]]
      exact numField_spec rec _ _
    · rw [show get_wifi_active st code = numField rec "bb_active"
        "Internal error retrieving wifiActive" by
        simp only [get_wifi_active, h1, h2]]
      exact numField_spec rec _ _
  · intro h1 h2
    refine ⟨?_, ?_, ?_⟩
    · rw [show get_num_tec_by_phone st phone = numField rec "num_contact_tec"
        "Internal error retrieving numTec" by
        simp only [get_num_tec_by_phone, h1, h2]]
      exact numField_spec rec _ _
    · rw [show get_num_amm_by_phone st phone = numField rec "num_contact_amm"
        "Internal error retrieving numAmm" by
        simp only [get_num_amm_by_phone, h1, h2]]
      exact numField_spec rec _ _
    · rw [show get_wifi_active_by_phone st phone = numField rec "bb_active"
        "Internal error retrieving wifiActive" by
        simp only [get_wifi_active_by_phone, h1, h2]]
      exact numField_spec rec _ _

theorem c1_numeric_accessor_defaults_witness :
    get_num_tec witState "A" = Except.ok 2 ∧
    get_num_tec_by_phone witState "391" = Except.ok 2 ∧
    (∃ d, get_wifi_active witState "A" =
      Except.error (ApiError.internal d)) := by
  have h := c1_numeric_accessor_defaults witState "A" "391" 0
    [("phone_number", "+391"), ("contract_code", "A"), ("user_name", "Ann"),
     ("num_contact_tec", "2"), ("num_contact_amm", "x"), ("bb_active", "")]
  refine ⟨?_, ?_, ?_⟩
  · exact ((h.1 rfl rfl).1).2.1 "2" 2 rfl rfl
  · exact ((h.2 (by decide) rfl).1).2.1 "2" 2 rfl rfl
  · exact ((h.1 rfl rfl).2.2).2.2 "" rfl rfl

theorem numField_no_notFound (rec : Row) (field d d2 : String) :
    numField rec field d ≠ Except.error (ApiError.notFound d2) := by
  unfold numField
  cases rowFind rec field with
  | none => simp
  | some v =>
    cases hv : pyIntParse v <;> simp [hv]

theorem numField_no_badRequest (rec : Row) (field d d2 : String) :
    numField rec field d ≠ Except.error (ApiError.badRequest d2) := by
  unfold numField
  cases rowFind rec field with
  | none => simp
  | some v =>
    cases hv : pyIntParse v <;> simp [hv]

/-- The key-resolution policy the single-field accessors actually
implement: NotFound exactly when the looked-up key is absent from the
index (the empty contract code included), and never BadRequest. -/
def keyPolicy {α : Type} (out : Except ApiError α)
    (found : Option Nat) : Prop :=
  ((∃ d, out = Except.error (ApiError.notFound d)) ↔ found = none) ∧
  ∀ d, out ≠ Except.error (ApiError.badRequest d)

/-- C3 counterexample: on the empty contract code the single-field
accessor `get_num_tec` answers NotFound where the generic
`get_by_contract` answers BadRequest, so the accessors do not apply the
generic empty-code BadRequest policy. -/
theorem c3_counterexample :
    ¬ (∀ (st : LoadResult) (code : String), code = "" →
        ∃ d, get_num_tec st code = Except.error (ApiError.badRequest d)) := by
  intro hclaim
  obtain ⟨d, hd⟩ := hclaim witState "" rfl
  rw [show get_num_tec witState "" =
    Except.error (ApiError.notFound "Contract code not found") from rfl] at hd
  injection hd with h2
  exact ApiError.noConfusion h2

/-- C3 amended: all eight single-field accessors resolve keys like the
generic lookups resolve present keys — the phone-keyed variants
normalize the raw phone and fail NotFound exactly when the normalized
value is absent from the phone index, the contract-keyed variants fail
NotFound exactly when the code is absent from the contract index — but,
unlike `get_by_contract`, the contract-keyed variants perform no
empty-code BadRequest check: an empty code is looked up like any other
key and none of the accessors ever returns BadRequest. -/
theorem c3_accessor_key_policy (st : LoadResult) (code phone : String) :
    keyPolicy (get_num_tec st code) (idxFind st.contract_idx code) ∧
    keyPolicy (get_num_amm st code) (idxFind st.contract_idx code) ∧
    keyPolicy (get_wifi_active st code) (idxFind st.contract_idx code) ∧
    keyPolicy (get_user_name st code) (idxFind st.contract_idx code) ∧
    keyPolicy (get_num_tec_by_phone st phone)
      (idxFind st.phone_idx (normalize_phone phone)) ∧
    keyPolicy (get_num_amm_by_phone st phone)
      (idxFind st.phone_idx (normalize_phone phone)) ∧
    keyPolicy (get_wifi_active_by_phone st phone)
      (idxFind st.phone_idx (normalize_phone phone)) ∧
    keyPolicy (get_user_name_by_phone st phone)
      (idxFind st.phone_idx (normalize_phone phone)) := by
  refine ⟨?_, ?_, ?_, ?_, ?_, ?_, ?_, ?_⟩
  · unfold keyPolicy
    simp only [get_num_tec]
    cases hf : idxFind st.contract_idx code with
    | none => simp
    | some pos =>
      cases hg : st.rows[pos]? with
      | none => simp [hg]
      | some rec => simp [hg, numField_no_notFound, numField_no_badRequest]
  · unfold keyPolicy
    simp only [get_num_amm]
    cases hf : idxFind st.contract_idx code with
    | none => simp
    | some pos =>
      cases hg : st.rows[pos]? with
      | none => simp [hg]
      | some rec => simp [hg, numField_no_notFound, numField_no_badRequest]
  · unfold keyPolicy
    simp only [get_wifi_active]
    cases hf : idxFind st.contract_idx code with
    | none => simp
    | some pos =>
      cases hg : st.rows[pos]? with
      | none => simp [hg]
      | some rec => simp [hg, numField_no_notFound, numField_no_badRequest]
  · unfold keyPolicy
    simp only [get_user_name]
    cases hf : idxFind st.contract_idx code with
    | none => simp
    | some pos =>
      cases hg : st.rows[pos]? with
      | none => simp [hg]
      | some rec => simp [hg]
  · unfold keyPolicy
    simp only [get_num_tec_by_phone]
    cases hf : idxFind st.phone_idx (normalize_phone phone) with
    | none => simp
    | some pos =>
      cases hg : st.rows[pos]? with
      | none => simp [hg]
      | some rec => simp [hg, numField_no_notFound, numField_no_badRequest]
  · unfold keyPolicy
    simp only [get_num_amm_by_phone]
    cases hf : idxFind st.phone_idx (normalize_phone phone) with
    | none => simp
    | some pos =>
      cases hg : st.rows[pos]? with
      | none => simp [hg]
      | some rec => simp [hg, numField_no_notFound, numField_no_badRequest]
  · unfold keyPolicy
    simp only [get_wifi_active_by_phone]
    cases hf : idxFind st.phone_idx (normalize_phone phone) with
    | none => simp
    | some pos =>
      cases hg : st.rows[pos]? with
      | none => simp [hg]
      | some rec => simp [hg, numField_no_notFound, numField_no_badRequest]
  · unfold keyPolicy
    simp only [get_user_name_by_phone]
    cases hf : idxFind st.phone_idx (normalize_phone phone) with
    | none => simp
    | some pos =>
      cases hg : st.rows[pos]? with
      | none => simp [hg]
      | some rec => simp [hg]

theorem c3_accessor_key_policy_witness :
    get_num_tec witState "" ≠
      Except.error (ApiError.badRequest "Contract code is required") :=
  (c3_accessor_key_policy witState "" "x").1.2 "Contract code is required"

end TestApi

